import Mathlib

/-!
Verification of the pump.fun screening pipeline against its design
document.  The definitions below are a shallow embedding of
src/app/screen.py and src/app/utils.py: Python floats are modelled as
exact rationals, every adapter call is an oracle function returning an
Option value (none models a call whose try/except handler fired:
TransientError, timeout, malformed response), and the concurrent
fan-out is modelled by an explicit small-step trace semantics in the
Act/CState section.
-/

/-- ScreeningRecord: one row of the result DataFrame, with exactly the
fields initialised by screen_once (src/app/screen.py lines 317-332). -/
structure Row where
  mint : String
  name : String
  symbol : String
  buys_per_minute : ℚ
  volume_1h_sol : ℚ
  creator_holdings_pct : ℚ
  lp_lock_pct : ℚ
  top10_concentration : ℚ
  x_growth : ℚ
  gtrend_growth : ℚ
  vwap_resilience : Bool
  score : ℚ
  risk_score : ℚ
  momentum_score : ℚ
deriving DecidableEq

/-- PumpFunScreener.calculate_score (src/app/screen.py lines 399-423):
the running sum of the eight capped terms, in source order. -/
def calculate_score (r : Row) : ℚ :=
  min (r.buys_per_minute / 25) 2
    + min (r.volume_1h_sol / 2000) 2
    + max 0 (1 - r.creator_holdings_pct * 100)
    + min r.lp_lock_pct 1
    + max 0 ((8 - r.top10_concentration * 100) / 8)
    + min (r.x_growth / 300) 1
    + min (r.gtrend_growth / 300) 1
    + (if r.vwap_resilience then 1 else 0)

/-- DataProcessor.calculate_risk_score (src/app/utils.py lines 173-190). -/
def calculate_risk_score (r : Row) : ℚ :=
  min (r.creator_holdings_pct * 100) 1 * 0.4
    + min (r.top10_concentration * 100) 1 * 0.3
    + (1 - min r.lp_lock_pct 1) * 0.3

/-- DataProcessor.calculate_momentum_score (src/app/utils.py lines 192-205). -/
def calculate_momentum_score (r : Row) : ℚ :=
  min (r.buys_per_minute / 25) 2 + min (r.volume_1h_sol / 2000) 2

/-- Spec-side composite score, written exactly as the grouped formula of
section 4.2 of the design document: momentum sub-score plus
risk-mitigation sub-score plus social sub-score plus resilience
sub-score, every term capped independently. -/
def compositeScoreSpec (r : Row) : ℚ :=
  (min (r.buys_per_minute / 25) 2 + min (r.volume_1h_sol / 2000) 2)
    + (max 0 (1 - r.creator_holdings_pct * 100)
        + min r.lp_lock_pct 1
        + max 0 ((8 - r.top10_concentration * 100) / 8))
    + (min (r.x_growth / 300) 1 + min (r.gtrend_growth / 300) 1)
    + (if r.vwap_resilience then 1 else 0)

/-- Spec-side risk score, written exactly as the weighted sum of
section 4.2 of the design document. -/
def riskScoreSpec (r : Row) : ℚ :=
  0.4 * min (r.creator_holdings_pct * 100) 1
    + 0.3 * min (r.top10_concentration * 100) 1
    + 0.3 * (1 - min r.lp_lock_pct 1)

/-- Python max over a list of prices (0 for the empty list, which the
callers below never hit). -/
def listMax : List ℚ → ℚ
  | [] => 0
  | p :: ps => ps.foldl max p

/-- Python min over a list of prices (0 for the empty list). -/
def listMin : List ℚ → ℚ
  | [] => 0
  | p :: ps => ps.foldl min p

/-- PumpFunScreener.check_vwap_resilience (src/app/screen.py lines
239-277), applied to the chronologically ordered raw trade prices
fetched for the lookback window (float(price or 0) for each trade). -/
def check_vwap_resilience (prices : List ℚ) : Bool :=
  if prices.length < 10 then false
  else
    let pos := prices.filter (fun p => decide (0 < p))
    if pos.length < 5 then false
    else
      let maxPrice := listMax pos
      let minPrice := listMin pos
      let dropPct := (maxPrice - minPrice) / maxPrice
      if 0.4 ≤ dropPct then
        decide ((0.2 : ℚ) ≤ (pos.getLast?.getD 0 - minPrice) / minPrice)
      else false

/-- Adapter oracles for one pipeline cycle.  Each field is one upstream
collaborator; none models a call on which the corresponding try/except
handler in the source fired (network fault, timeout, malformed
response), all handled inside the fetch methods themselves. -/
structure Oracles where
  fastStats : String → Option (ℚ × ℚ)
  tokenInfo : String → Option (String × String)
  supply : String → Option (ℚ × ℚ)
  topHolders : String → Option (List (String × ℚ))
  priceHistory : String → Option (List ℚ)
  sns : String → Option (ℚ × ℚ)

/-- PumpFunScreener.fast_stats after its internal exception handler
(src/app/screen.py lines 162-188): a failed call degrades to (0, 0). -/
def fastStatsOf (o : Oracles) (m : String) : ℚ × ℚ :=
  (o.fastStats m).getD (0, 0)

/-- Stage-1 filter condition of screen_once.process_mint
(src/app/screen.py line 313). -/
def stage1Pass (bpm vol : ℚ) : Bool :=
  decide (25 ≤ bpm) && decide (2000 ≤ vol)

/-- Whether a candidate passes the Stage-1 filter in this cycle. -/
def passesFilter (o : Oracles) (m : String) : Bool :=
  stage1Pass (fastStatsOf o m).1 (fastStatsOf o m).2

/-- TokenInfoFetcher.get_token_info (src/app/utils.py lines 92-132):
every failure path yields the Unknown defaults. -/
def tokenInfoOf (o : Oracles) (m : String) : String × String :=
  (o.tokenInfo m).getD ("Unknown", "UNKNOWN")

/-- Row as appended by process_mint for a candidate that passed the
Stage-1 filter (src/app/screen.py lines 317-333). -/
def initRow (o : Oracles) (m : String) : Row :=
  { mint := m
    name := (tokenInfoOf o m).1
    symbol := (tokenInfoOf o m).2
    buys_per_minute := (fastStatsOf o m).1
    volume_1h_sol := (fastStatsOf o m).2
    creator_holdings_pct := 0
    lp_lock_pct := 0
    top10_concentration := 0
    x_growth := 0
    gtrend_growth := 0
    vwap_resilience := false
    score := 0
    risk_score := 0
    momentum_score := 0 }

/-- check_vwap_resilience including its price fetch: a failed fetch hits
the handler and returns false (src/app/screen.py lines 239-277). -/
def vwapFlagOf (o : Oracles) (m : String) : Bool :=
  match o.priceHistory m with
  | none => false
  | some ps => check_vwap_resilience ps

/-- Deep scan of one surviving row (screen_once.deep_scan,
src/app/screen.py lines 342-394): each of the four sub-fetches is
individually degraded to its documented default on failure, the row is
updated field by field, then the three scores are computed on the
updated row. -/
def deepScan (o : Oracles) (r : Row) : Row :=
  let sm := (o.supply r.mint).getD (0, 0)
  let th := (o.topHolders r.mint).getD []
  let r1 : Row :=
    { r with
      creator_holdings_pct := sm.1
      lp_lock_pct := sm.2
      top10_concentration := ((th.take 10).map Prod.snd).sum
      vwap_resilience := vwapFlagOf o r.mint
      x_growth := ((o.sns r.mint).getD (0, 0)).1
      gtrend_growth := ((o.sns r.mint).getD (0, 0)).2 }
  { r1 with
    score := calculate_score r1
    risk_score := calculate_risk_score r1
    momentum_score := calculate_momentum_score r1 }

/-- Stable insertion of a row into a list kept descending by score. -/
def insertRow (r : Row) : List Row → List Row
  | [] => [r]
  | s :: t => if s.score ≤ r.score then r :: s :: t else s :: insertRow r t

/-- Embedding of df.sort_values on the score column with
ascending=False (src/app/screen.py line 397), as a stable descending
sort.  The pandas default quicksort does not document stability, so
only conclusions that do not depend on stability transfer
unconditionally. -/
def sortDesc (l : List Row) : List Row := l.foldr insertRow []

/-- Rows appended by Stage-1, in append order.  The argument is the
order in which the concurrent process_mint tasks completed: some
permutation of the candidate list, chosen by the scheduler; the serial
schedule keeps the discovery order. -/
def stage1Rows (o : Oracles) (arrival : List String) : List Row :=
  (arrival.filter (passesFilter o)).map (initRow o)

/-- Rows after every deep_scan task finished. -/
def finalRows (o : Oracles) (arrival : List String) : List Row :=
  (stage1Rows o arrival).map (deepScan o)

/-- PumpFunScreener.screen_once (src/app/screen.py lines 303-397): one
full pipeline cycle, from candidate list to ranked rows. -/
def screen_once (o : Oracles) (arrival : List String) : List Row :=
  sortDesc (finalRows o arrival)

/-- Sortedness predicate of the ranked output: scores never increase
along the list. -/
def SortedDesc (l : List Row) : Prop :=
  List.Pairwise (fun a b => b.score ≤ a.score) l

/-- Documented contract of df.sort_values on the score column with
ascending=False (src/app/screen.py line 397): the output is a
permutation of the input rows, ordered descending by score.  The pandas
default kind, quicksort, documents no stability, so nothing beyond this
contract may be assumed about the real sorter: every permutation of
equal-score rows is a permissible output. -/
def SortSpec (l out : List Row) : Prop :=
  List.Perm out l ∧ SortedDesc out

/-- Oracle with the supply-metrics fetch failing for one candidate. -/
def failSupply (o : Oracles) (m : String) : Oracles :=
  { o with supply := fun x => if x = m then none else o.supply x }

/-- Oracle with the top-holders fetch failing for one candidate. -/
def failHolders (o : Oracles) (m : String) : Oracles :=
  { o with topHolders := fun x => if x = m then none else o.topHolders x }

/-- Oracle with the price-history fetch failing for one candidate. -/
def failPrices (o : Oracles) (m : String) : Oracles :=
  { o with priceHistory := fun x => if x = m then none else o.priceHistory x }

/-- Oracle with the social-signal fetch failing for one candidate. -/
def failSns (o : Oracles) (m : String) : Oracles :=
  { o with sns := fun x => if x = m then none else o.sns x }

/-- Oracle with every Stage-2 sub-fetch failing for one candidate. -/
def failAllDeep (o : Oracles) (m : String) : Oracles :=
  failSns (failPrices (failHolders (failSupply o m) m) m) m

/-- Atomic actions of a pipeline task: semaphore acquire and release,
and the start and end of one in-flight upstream call.  Tasks suspend
only at these points, matching the await points of the source. -/
inductive Act
  | acq
  | rel
  | beginF
  | endF
deriving DecidableEq

/-- Scheduler state: free semaphore permits, number of in-flight
upstream calls, and the remaining program of every task. -/
structure CState where
  sem : ℕ
  inflight : ℕ
  tasks : List (List Act)
deriving DecidableEq

/-- One cooperative step: task i runs its next action if it is enabled
(acq blocks while no permit is free; a finished task has no action). -/
def cstep (s : CState) (i : ℕ) : Option CState :=
  match s.tasks[i]? with
  | some (Act.acq :: rest) =>
      if 0 < s.sem then
        some { sem := s.sem - 1, inflight := s.inflight,
               tasks := s.tasks.set i rest }
      else none
  | some (Act.rel :: rest) =>
      some { sem := s.sem + 1, inflight := s.inflight,
             tasks := s.tasks.set i rest }
  | some (Act.beginF :: rest) =>
      some { sem := s.sem, inflight := s.inflight + 1,
             tasks := s.tasks.set i rest }
  | some (Act.endF :: rest) =>
      some { sem := s.sem, inflight := s.inflight - 1,
             tasks := s.tasks.set i rest }
  | _ => none

/-- Run a schedule: the list of task indices picked by the scheduler. -/
def runSched : CState → List ℕ → Option CState
  | s, [] => some s
  | s, i :: rest =>
      match cstep s i with
      | none => none
      | some s2 => runSched s2 rest

/-- Reachability under some schedule. -/
def Reach (s t : CState) : Prop := ∃ sched, runSched s sched = some t

/-- Stage-1 task of a candidate that passes the filter: acquire the
semaphore, the fast_stats call, the get_token_info call, release
(src/app/screen.py lines 308-333). -/
def prog1pass : List Act :=
  [Act.acq, Act.beginF, Act.endF, Act.beginF, Act.endF, Act.rel]

/-- Stage-1 task of a candidate that fails the filter: only the
fast_stats call runs inside the semaphore. -/
def prog1fail : List Act :=
  [Act.acq, Act.beginF, Act.endF, Act.rel]

/-- Stage-2 deep_scan task: five sequential upstream calls (supply
metrics, top holders, price history, Google Trends, Twitter) and no
semaphore at all (src/app/screen.py lines 342-394). -/
def prog2 : List Act :=
  [Act.beginF, Act.endF, Act.beginF, Act.endF, Act.beginF, Act.endF,
   Act.beginF, Act.endF, Act.beginF, Act.endF]

/-- Start of Stage-1 with n passing and k failing candidates: the
semaphore holds 10 permits (src/app/screen.py line 306). -/
def init1 (n k : ℕ) : CState :=
  { sem := 10, inflight := 0,
    tasks := List.replicate n prog1pass ++ List.replicate k prog1fail }

/-- Start of Stage-2 with m survivors; the permits are all free because
Stage-1 has fully completed, and no Stage-2 task ever touches them. -/
def init2 (m : ℕ) : CState :=
  { sem := 10, inflight := 0, tasks := List.replicate m prog2 }

/-- Task currently holds a semaphore permit: it is past its acq and its
rel has not run yet. -/
def holdsSem : List Act → Bool
  | [] => false
  | Act.acq :: _ => false
  | _ :: _ => true

/-- Task currently has an upstream call in flight. -/
def midFetch : List Act → Bool
  | Act.endF :: _ => true
  | _ => false

/-- Invariant of the Stage-1 trace semantics: permits plus holders equal
the ceiling, the in-flight counter counts the fetching tasks, and every
task is a suffix of one of the two Stage-1 programs. -/
def Inv1 (s : CState) : Prop :=
  s.sem + s.tasks.countP holdsSem = 10 ∧
  s.inflight = s.tasks.countP midFetch ∧
  ∀ l ∈ s.tasks, l <:+ prog1pass ∨ l <:+ prog1fail

/-- Invariant of the Stage-2 trace semantics: the in-flight counter
counts the fetching tasks, every task is a suffix of the deep_scan
program, and the number of tasks never changes. -/
def Inv2 (m : ℕ) (s : CState) : Prop :=
  s.inflight = s.tasks.countP midFetch ∧
  (∀ l ∈ s.tasks, l <:+ prog2) ∧
  s.tasks.length = m

/-- Schedule that makes 11 Stage-2 tasks start a fetch each before any
of them finishes. -/
def elevenSched : List ℕ := [0, 1, 2, 3, 4, 5, 6, 7, 8, 9, 10]

/-- State reached by elevenSched from init2 11. -/
def elevenState : CState :=
  { sem := 10, inflight := 11, tasks := List.replicate 11 prog2.tail }

/-- Oracle for the end-to-end A/B example of the design document:
candidate A passes Stage-1, candidate B fails, every deep fetch
degrades to its default. -/
def oAB : Oracles :=
  { fastStats := fun m =>
      if m = "A" then some (30, 3000)
      else if m = "B" then some (5, 100) else none
    tokenInfo := fun _ => none
    supply := fun _ => none
    topHolders := fun _ => none
    priceHistory := fun _ => none
    sns := fun _ => none }

/-- Oracle under which candidates A and B both pass Stage-1 with
identical stats, hence identical composite scores. -/
def oTie : Oracles :=
  { fastStats := fun m =>
      if m = "A" ∨ m = "B" then some (25, 2000) else none
    tokenInfo := fun _ => none
    supply := fun _ => none
    topHolders := fun _ => none
    priceHistory := fun _ => none
    sns := fun _ => none }

/-- Oracle under which candidate A survives Stage-1 on the threshold
values while its enrichment data pushes the composite score below 2:
the creator and top-10 terms vanish and the negative search-trend
growth subtracts a full point. -/
def oLow : Oracles :=
  { fastStats := fun m => if m = "A" then some (25, 2000) else none
    tokenInfo := fun _ => none
    supply := fun m => if m = "A" then some (0.02, 0) else none
    topHolders := fun m => if m = "A" then some [("h1", 0.09)] else none
    priceHistory := fun _ => none
    sns := fun m => if m = "A" then some (0, -300) else none }

/-- Record with every metric zero except a negative search-trend
growth, as produced by a quiet token whose Google Trends interest sits
far below its window average. -/
def rowNeg : Row :=
  { mint := "X", name := "X", symbol := "X",
    buys_per_minute := 0, volume_1h_sol := 0, creator_holdings_pct := 0,
    lp_lock_pct := 0, top10_concentration := 0, x_growth := 0,
    gtrend_growth := -900, vwap_resilience := false,
    score := 0, risk_score := 0, momentum_score := 0 }

/-- Record with every metric zero, inside the documented input domain. -/
def rowZero : Row :=
  { mint := "Z", name := "Z", symbol := "Z",
    buys_per_minute := 0, volume_1h_sol := 0, creator_holdings_pct := 0,
    lp_lock_pct := 0, top10_concentration := 0, x_growth := 0,
    gtrend_growth := 0, vwap_resilience := false,
    score := 0, risk_score := 0, momentum_score := 0 }

/-- Finalised record of candidate A under the A/B example oracle. -/
def rowA : Row := deepScan oAB (initRow oAB "A")

/-- Finalised record of candidate A under the tie oracle. -/
def rowTieA : Row := deepScan oTie (initRow oTie "A")

/-- Finalised record of candidate B under the tie oracle. -/
def rowTieB : Row := deepScan oTie (initRow oTie "B")

/-- Claim C1: the composite score is the unweighted sum of the four
independently capped sub-scores exactly as the design document states
it, no term re-capped by the total: the source formula of
calculate_score coincides with the grouped spec formula on every
record. -/
theorem composite_score_matches_spec :
    ∀ r : Row, calculate_score r = compositeScoreSpec r := by
  intro r
  unfold calculate_score compositeScoreSpec
  ring

/-- Claim C6: the risk score is exactly the weighted sum
0.4 min(creator 100, 1) + 0.3 min(top10 100, 1) + 0.3 (1 - min(lp, 1))
of the design document, independent of the composite score: the source
formula of calculate_risk_score coincides with the spec formula on
every record. -/
theorem risk_score_matches_spec :
    ∀ r : Row, calculate_risk_score r = riskScoreSpec r := by
  intro r
  unfold calculate_risk_score riskScoreSpec
  ring

/-- Claim C9: the Stage-1 filter is monotonic: raising either fast stat
while the other does not decrease never turns a passing candidate into
a failing one. -/
theorem stage1_filter_monotone :
    ∀ b b2 v v2 : ℚ, stage1Pass b v = true → b ≤ b2 → v ≤ v2 →
      stage1Pass b2 v2 = true := by
  intro b b2 v v2 h hb hv
  simp only [stage1Pass, Bool.and_eq_true, decide_eq_true_eq] at h ⊢
  exact ⟨h.1.trans hb, h.2.trans hv⟩

/-- Witness for stage1_filter_monotone at the threshold values. -/
theorem stage1_filter_monotone_witness :
    stage1Pass 25 2000 = true ∧ stage1Pass 30 2500 = true := by
  have h0 : stage1Pass 25 2000 = true := by
    norm_num [stage1Pass]
  exact ⟨h0, stage1_filter_monotone 25 30 2000 2500 h0 (by norm_num) (by norm_num)⟩

/-- Counterexample to claim C7 as stated: the scoring functions are not
range-bounded over all inputs.  On a record whose search-trend growth
is -900 (all other metrics zero) the composite score of the source
formula is -1, below the claimed lower bound 0. -/
theorem score_range_counterexample :
    calculate_score rowNeg = -1 ∧ calculate_score rowNeg < 0 := by
  constructor
  · norm_num [calculate_score, rowNeg, max_def, min_def]
  · norm_num [calculate_score, rowNeg, max_def, min_def]

/-- Claim C7 as amended: on the documented input domain, with every
metric nonnegative (buy count, volume, creator holdings, LP lock, top-10
concentration, social and search growth), the three scoring functions
stay within their stated ranges: composite in [0, 10], risk in [0, 1],
momentum in [0, 4]. -/
theorem score_ranges_on_domain :
    ∀ r : Row, 0 ≤ r.buys_per_minute → 0 ≤ r.volume_1h_sol →
      0 ≤ r.creator_holdings_pct → 0 ≤ r.lp_lock_pct →
      0 ≤ r.top10_concentration → 0 ≤ r.x_growth → 0 ≤ r.gtrend_growth →
      (0 ≤ calculate_score r ∧ calculate_score r ≤ 10) ∧
      (0 ≤ calculate_risk_score r ∧ calculate_risk_score r ≤ 1) ∧
      (0 ≤ calculate_momentum_score r ∧ calculate_momentum_score r ≤ 4) := by
  intro r hb hv hc hlp ht hx hg
  unfold calculate_score calculate_risk_score calculate_momentum_score
  have h1a : (0 : ℚ) ≤ min (r.buys_per_minute / 25) 2 :=
    le_min (by positivity) (by norm_num)
  have h1b : min (r.buys_per_minute / 25) 2 ≤ 2 := min_le_right _ _
  have h2a : (0 : ℚ) ≤ min (r.volume_1h_sol / 2000) 2 :=
    le_min (by positivity) (by norm_num)
  have h2b : min (r.volume_1h_sol / 2000) 2 ≤ 2 := min_le_right _ _
  have h3a : (0 : ℚ) ≤ max 0 (1 - r.creator_holdings_pct * 100) := le_max_left _ _
  have h3b : max 0 (1 - r.creator_holdings_pct * 100) ≤ 1 :=
    max_le (by norm_num) (by nlinarith)
  have h4a : (0 : ℚ) ≤ min r.lp_lock_pct 1 := le_min hlp zero_le_one
  have h4b : min r.lp_lock_pct 1 ≤ 1 := min_le_right _ _
  have h5a : (0 : ℚ) ≤ max 0 ((8 - r.top10_concentration * 100) / 8) := le_max_left _ _
  have h5b : max 0 ((8 - r.top10_concentration * 100) / 8) ≤ 1 := by
    refine max_le (by norm_num) ?_
    rw [div_le_one (by norm_num : (0 : ℚ) < 8)]
    nlinarith
  have h6a : (0 : ℚ) ≤ min (r.x_growth / 300) 1 := le_min (by positivity) zero_le_one
  have h6b : min (r.x_growth / 300) 1 ≤ 1 := min_le_right _ _
  have h7a : (0 : ℚ) ≤ min (r.gtrend_growth / 300) 1 :=
    le_min (by positivity) zero_le_one
  have h7b : min (r.gtrend_growth / 300) 1 ≤ 1 := min_le_right _ _
  have h8a : (0 : ℚ) ≤ (if r.vwap_resilience then (1 : ℚ) else 0) := by
    split <;> norm_num
  have h8b : (if r.vwap_resilience then (1 : ℚ) else 0) ≤ 1 := by
    split <;> norm_num
  have r1a : (0 : ℚ) ≤ min (r.creator_holdings_pct * 100) 1 :=
    le_min (by positivity) zero_le_one
  have r1b : min (r.creator_holdings_pct * 100) 1 ≤ 1 := min_le_right _ _
  have r2a : (0 : ℚ) ≤ min (r.top10_concentration * 100) 1 :=
    le_min (by positivity) zero_le_one
  have r2b : min (r.top10_concentration * 100) 1 ≤ 1 := min_le_right _ _
  refine ⟨⟨by linarith, by linarith⟩, ⟨by linarith, by linarith⟩,
    by linarith, by linarith⟩

/-- Witness for score_ranges_on_domain at the all-zero record. -/
theorem score_ranges_on_domain_witness :
    (0 ≤ calculate_score rowZero ∧ calculate_score rowZero ≤ 10) ∧
    (0 ≤ calculate_risk_score rowZero ∧ calculate_risk_score rowZero ≤ 1) ∧
    (0 ≤ calculate_momentum_score rowZero ∧ calculate_momentum_score rowZero ≤ 4) :=
  score_ranges_on_domain rowZero (by norm_num [rowZero]) (by norm_num [rowZero])
    (by norm_num [rowZero]) (by norm_num [rowZero]) (by norm_num [rowZero])
    (by norm_num [rowZero]) (by norm_num [rowZero])

/-- Claim C2: the resilience flag is false on fewer than 10 raw
observations or fewer than 5 positive prices, and otherwise true
exactly when the drop fraction reaches 0.4 and the recovery fraction
(measured at the chronologically last positive price) reaches 0.2; on
the two concrete sequences of the design document the flag is true for
the one ending in 7.5 and false for the one ending in 6.5. -/
theorem resilience_flag_characterization :
    (∀ prices : List ℚ,
        check_vwap_resilience prices = true ↔
          (10 ≤ prices.length ∧
            5 ≤ (prices.filter (fun p => decide (0 < p))).length ∧
            0.4 ≤ (listMax (prices.filter (fun p => decide (0 < p)))
                    - listMin (prices.filter (fun p => decide (0 < p))))
                  / listMax (prices.filter (fun p => decide (0 < p))) ∧
            0.2 ≤ ((prices.filter (fun p => decide (0 < p))).getLast?.getD 0
                    - listMin (prices.filter (fun p => decide (0 < p))))
                  / listMin (prices.filter (fun p => decide (0 < p)))))
      ∧ check_vwap_resilience [10, 10, 10, 10, 10, 6, 6, 6, 6, 7.5] = true
      ∧ check_vwap_resilience [10, 10, 10, 10, 10, 6, 6, 6, 6, 6.5] = false := by
  refine ⟨?_, by norm_num [check_vwap_resilience, listMax, listMin, max_def, min_def],
    by norm_num [check_vwap_resilience, listMax, listMin, max_def, min_def]⟩
  intro prices
  simp only [check_vwap_resilience]
  split_ifs with h1 h2 h3
  · simp only [Bool.false_eq_true, false_iff]
    rintro ⟨h10, -⟩
    omega
  · simp only [Bool.false_eq_true, false_iff]
    rintro ⟨-, h5, -⟩
    omega
  · simp only [decide_eq_true_eq]
    constructor
    · intro hr
      exact ⟨by omega, by omega, h3, hr⟩
    · rintro ⟨-, -, -, hr⟩
      exact hr
  · simp only [Bool.false_eq_true, false_iff]
    rintro ⟨-, -, hd, -⟩
    exact h3 hd

/-- Membership in the insertion step adds exactly the inserted row. -/
theorem mem_insertRow {a r : Row} : ∀ {l : List Row}, a ∈ insertRow r l ↔ a = r ∨ a ∈ l := by
  intro l
  induction l with
  | nil => simp [insertRow]
  | cons s t ih =>
    simp only [insertRow]
    split_ifs with hs
    · simp
    · simp only [List.mem_cons, ih]
      tauto

/-- Sorting permutes the rows, so membership is unchanged. -/
theorem mem_sortDesc {a : Row} : ∀ {l : List Row}, a ∈ sortDesc l ↔ a ∈ l := by
  intro l
  induction l with
  | nil => simp [sortDesc]
  | cons s t ih =>
    rw [show sortDesc (s :: t) = insertRow s (sortDesc t) from rfl, mem_insertRow, ih,
      List.mem_cons]

/-- Inserting into a descending list keeps it descending. -/
theorem sortedDesc_insertRow (r : Row) :
    ∀ l : List Row, SortedDesc l → SortedDesc (insertRow r l) := by
  intro l
  induction l with
  | nil =>
    intro
    simp [insertRow, SortedDesc]
  | cons s t ih =>
    intro h
    unfold SortedDesc at h ⊢
    rw [List.pairwise_cons] at h
    simp only [insertRow]
    split_ifs with hs
    · rw [List.pairwise_cons]
      refine ⟨?_, ?_⟩
      · intro b hb
        rcases List.mem_cons.1 hb with rfl | hb2
        · exact hs
        · exact (h.1 b hb2).trans hs
      · rw [List.pairwise_cons]
        exact h
    · rw [List.pairwise_cons]
      refine ⟨?_, ih h.2⟩
      intro b hb
      rcases mem_insertRow.1 hb with rfl | hb2
      · exact le_of_not_le hs
      · exact h.1 b hb2

/-- The sort output is descending in score. -/
theorem sortDesc_sorted : ∀ l : List Row, SortedDesc (sortDesc l) := by
  intro l
  induction l with
  | nil => simp [sortDesc, SortedDesc]
  | cons s t ih => exact sortedDesc_insertRow s (sortDesc t) ih

/-- Insertion permutes: inserting a row yields a permutation of consing
it in front. -/
theorem insertRow_perm (r : Row) : ∀ l : List Row, (insertRow r l).Perm (r :: l) := by
  intro l
  induction l with
  | nil => exact List.Perm.refl _
  | cons s t ih =>
    simp only [insertRow]
    split_ifs with hs
    · exact List.Perm.refl _
    · exact (List.Perm.cons s ih).trans (List.Perm.swap r s t)

/-- The sort output is a permutation of its input. -/
theorem sortDesc_perm : ∀ l : List Row, (sortDesc l).Perm l := by
  intro l
  induction l with
  | nil => exact List.Perm.refl _
  | cons s t ih =>
    exact (insertRow_perm s (sortDesc t)).trans (List.Perm.cons s ih)

/-- Score sequences are determined by the documented sort contract: any
two sorted-descending permutations of the same row list carry the same
score column, whichever tie order each chose. -/
theorem sortSpec_scores_eq :
    ∀ l out1 out2 : List Row, SortSpec l out1 → SortSpec l out2 →
      out1.map Row.score = out2.map Row.score := by
  intro l out1 out2 h1 h2
  haveI : IsAntisymm ℚ (fun a b : ℚ => b ≤ a) :=
    ⟨fun a b hab hba => le_antisymm hba hab⟩
  have hs1 : List.Sorted (fun a b : ℚ => b ≤ a) (out1.map Row.score) :=
    List.Pairwise.map Row.score (fun a b h => h) h1.2
  have hs2 : List.Sorted (fun a b : ℚ => b ≤ a) (out2.map Row.score) :=
    List.Pairwise.map Row.score (fun a b h => h) h2.2
  exact List.eq_of_perm_of_sorted ((h1.1.trans h2.1.symm).map Row.score) hs1 hs2

/-- Mint preservation along the deep scan. -/
theorem deepScan_mint (o : Oracles) (r : Row) : (deepScan o r).mint = r.mint := rfl

/-- Membership characterisation of one cycle: a mint appears in the
output exactly when it was a candidate and its fast stats pass the
Stage-1 filter. -/
theorem mem_screen_once_iff (o : Oracles) (cs : List String) (m : String) :
    (∃ r ∈ screen_once o cs, r.mint = m) ↔ (m ∈ cs ∧ passesFilter o m = true) := by
  unfold screen_once finalRows stage1Rows
  constructor
  · rintro ⟨r, hr, hmint⟩
    rw [mem_sortDesc] at hr
    simp only [List.mem_map] at hr
    obtain ⟨r0, ⟨m2, hm2, rfl⟩, rfl⟩ := hr
    have : m2 = m := hmint
    subst this
    exact List.mem_filter.1 hm2 |>.imp id fun h => h
  · rintro ⟨hmem, hpass⟩
    refine ⟨deepScan o (initRow o m), ?_, rfl⟩
    rw [mem_sortDesc]
    simp only [List.mem_map]
    exact ⟨initRow o m, ⟨m, List.mem_filter.2 ⟨hmem, hpass⟩, rfl⟩, rfl⟩

/-- Claim C3: a candidate reaches Stage-2, and hence the result set,
exactly when its fast stats pass both thresholds; a failed fast-stats
call degrades to (0, 0), which fails the filter, so the candidate is
absent (fail-closed).  On the concrete A/B example only the record of A
is returned. -/
theorem stage1_gate_membership :
    (∀ (o : Oracles) (cs : List String) (m : String),
        (∃ r ∈ screen_once o cs, r.mint = m) ↔ (m ∈ cs ∧ passesFilter o m = true))
      ∧ (screen_once oAB ["A", "B"]).map Row.mint = ["A"] :=
  ⟨mem_screen_once_iff, rfl⟩

/-- Helper: the two tied records carry the same composite score. -/
theorem rowTie_scores_eq : rowTieB.score = rowTieA.score := by
  norm_num [rowTieA, rowTieB, deepScan, initRow, oTie, tokenInfoOf, fastStatsOf,
    vwapFlagOf, calculate_score, calculate_risk_score, calculate_momentum_score,
    max_def, min_def]

/-- Helper: the B-first tied pair is descending by score. -/
theorem sortedDesc_rowTie : SortedDesc [rowTieB, rowTieA] := by
  unfold SortedDesc
  rw [List.pairwise_cons]
  refine ⟨?_, List.pairwise_singleton _ _⟩
  intro b hb
  rw [List.mem_singleton.1 hb]
  exact le_of_eq rowTie_scores_eq.symm

/-- Helper: finalized rows of the tied cycle in arrival order A, B. -/
theorem finalRows_tie_AB : finalRows oTie ["A", "B"] = [rowTieA, rowTieB] := by
  norm_num [finalRows, stage1Rows, passesFilter, fastStatsOf, stage1Pass, oTie,
    rowTieA, rowTieB]

/-- Helper: finalized rows of the tied cycle in arrival order B, A. -/
theorem finalRows_tie_BA : finalRows oTie ["B", "A"] = [rowTieB, rowTieA] := by
  norm_num [finalRows, stage1Rows, passesFilter, fastStatsOf, stage1Pass, oTie,
    rowTieA, rowTieB]

/-- Helper: the model output of the tied cycle for arrival order A, B. -/
theorem screen_once_tie_AB : screen_once oTie ["A", "B"] = [rowTieA, rowTieB] := by
  show sortDesc (finalRows oTie ["A", "B"]) = _
  rw [finalRows_tie_AB]
  have hle : rowTieB.score ≤ rowTieA.score := le_of_eq rowTie_scores_eq
  simp [sortDesc, insertRow, hle]

/-- Helper: the model output of the tied cycle for arrival order B, A. -/
theorem screen_once_tie_BA : screen_once oTie ["B", "A"] = [rowTieB, rowTieA] := by
  show sortDesc (finalRows oTie ["B", "A"]) = _
  rw [finalRows_tie_BA]
  have hle : rowTieA.score ≤ rowTieB.score := le_of_eq rowTie_scores_eq.symm
  simp [sortDesc, insertRow, hle]

/-- Counterexample to claim C5 as stated: neither half of the tie-order
promise survives the source.  The rows enter the sort in the order the
concurrent Stage-1 tasks completed, which for the candidate set
discovered as A then B can be the permutation B then A; and the sorter,
df.sort_values with the pandas default quicksort, promises only a
sorted permutation of its input, not stability.  With both composite
scores tied, the list with B first is a valid returned set under that
documented contract, both for the completion order B, A and even for
the serial completion order A, B: records with equal composite score
need not keep their discovery order. -/
theorem ranking_discovery_order_counterexample :
    List.Perm ["B", "A"] ["A", "B"] ∧
    SortSpec (finalRows oTie ["B", "A"]) [rowTieB, rowTieA] ∧
    SortSpec (finalRows oTie ["A", "B"]) [rowTieB, rowTieA] ∧
    rowTieB.score = rowTieA.score ∧
    rowTieB.mint = "B" ∧
    rowTieA.mint = "A" := by
  refine ⟨by decide, ⟨?_, sortedDesc_rowTie⟩, ⟨?_, sortedDesc_rowTie⟩,
    rowTie_scores_eq, rfl, rfl⟩
  · rw [finalRows_tie_BA]
  · rw [finalRows_tie_AB]
    exact List.Perm.swap rowTieA rowTieB []

/-- Claim C5 as amended: the returned set satisfies the documented
contract of the sorter, a permutation of the finalized records sorted
descending by composite score.  Tie order is unspecified: the rows
enter the sort in Stage-1 completion order, not discovery order, and
the pandas default quicksort documents no stability.  The score
sequence of the output is nonetheless uniquely determined by the
finalized records, whichever contract-satisfying sorter runs, and
re-sorting a returned set yields the same score sequence again:
ranking is idempotent up to the unspecified order of tied records. -/
theorem ranking_sorted_scores_determined :
    (∀ (o : Oracles) (arrival : List String),
        SortSpec (finalRows o arrival) (screen_once o arrival)) ∧
    (∀ l out1 out2 : List Row, SortSpec l out1 → SortSpec l out2 →
        out1.map Row.score = out2.map Row.score) ∧
    (∀ l out1 out2 : List Row, SortSpec l out1 → SortSpec out1 out2 →
        out2.map Row.score = out1.map Row.score) :=
  ⟨fun _ _ => ⟨sortDesc_perm _, sortDesc_sorted _⟩,
   sortSpec_scores_eq,
   fun _ out1 out2 h1 h2 =>
     sortSpec_scores_eq out1 out2 out1 h2 ⟨List.Perm.refl out1, h1.2⟩⟩

/-- Witness for ranking_sorted_scores_determined on the tied A/B cycle:
the outputs of the two completion orders are both valid sort results of
the same finalized rows, so their score sequences agree, and re-sorting
the first output into the second keeps the score sequence. -/
theorem ranking_sorted_scores_determined_witness :
    ((screen_once oTie ["A", "B"]).map Row.score
        = (screen_once oTie ["B", "A"]).map Row.score) ∧
    ((screen_once oTie ["B", "A"]).map Row.score
        = (screen_once oTie ["A", "B"]).map Row.score) := by
  have hA := ranking_sorted_scores_determined.1 oTie ["A", "B"]
  have hB : SortSpec (finalRows oTie ["A", "B"]) (screen_once oTie ["B", "A"]) := by
    constructor
    · rw [screen_once_tie_BA, finalRows_tie_AB]
      exact List.Perm.swap rowTieA rowTieB []
    · rw [screen_once_tie_BA]
      exact sortedDesc_rowTie
  have hAB : SortSpec (screen_once oTie ["A", "B"]) (screen_once oTie ["B", "A"]) := by
    constructor
    · rw [screen_once_tie_AB, screen_once_tie_BA]
      exact List.Perm.swap rowTieA rowTieB []
    · rw [screen_once_tie_BA]
      exact sortedDesc_rowTie
  exact ⟨ranking_sorted_scores_determined.2.1 (finalRows oTie ["A", "B"]) _ _ hA hB,
         ranking_sorted_scores_determined.2.2 (finalRows oTie ["A", "B"]) _ _ hA hAB⟩

/-- Counterexample to claim C10 as stated: a surviving candidate whose
enrichment succeeds with a 2 percent creator share, a 9 percent top-10
sum and a search-trend growth of -300 is returned with composite score
1, below the claimed floor of 2 (momentum is exactly 2). -/
theorem output_composite_floor_counterexample :
    (screen_once oLow ["A"]).map Row.score = [1] ∧
    (screen_once oLow ["A"]).map Row.momentum_score = [2] ∧
    ¬(2 ≤ (1 : ℚ)) := by
  refine ⟨?_, ?_, by norm_num⟩ <;>
    norm_num [screen_once, finalRows, stage1Rows, passesFilter, fastStatsOf, stage1Pass,
      oLow, initRow, tokenInfoOf, deepScan, vwapFlagOf, sortDesc, insertRow,
      calculate_score, calculate_risk_score, calculate_momentum_score, max_def, min_def]

/-- Claim C10 as amended: every returned record has momentum score at
least 2, because both Stage-1 thresholds held; its composite score is
at least 2 as well provided the enriched LP-lock, social-growth and
search-growth values are nonnegative, which in particular holds
whenever those sub-fetches failed and defaulted to zero. -/
theorem output_momentum_floor :
    ∀ (o : Oracles) (arrival : List String) (r : Row),
      r ∈ screen_once o arrival →
      2 ≤ r.momentum_score ∧
      (0 ≤ r.lp_lock_pct → 0 ≤ r.x_growth → 0 ≤ r.gtrend_growth → 2 ≤ r.score) := by
  intro o arrival r hr
  unfold screen_once at hr
  rw [mem_sortDesc] at hr
  unfold finalRows stage1Rows at hr
  simp only [List.mem_map] at hr
  obtain ⟨r0, ⟨mm, hmm, rfl⟩, rfl⟩ := hr
  rw [List.mem_filter] at hmm
  have hp := hmm.2
  unfold passesFilter stage1Pass at hp
  rw [Bool.and_eq_true, decide_eq_true_eq, decide_eq_true_eq] at hp
  obtain ⟨hb, hv⟩ := hp
  have hminb : (1 : ℚ) ≤ min ((fastStatsOf o mm).1 / 25) 2 :=
    le_min (by rw [le_div_iff₀ (by norm_num : (0 : ℚ) < 25)]; linarith) (by norm_num)
  have hminv : (1 : ℚ) ≤ min ((fastStatsOf o mm).2 / 2000) 2 :=
    le_min (by rw [le_div_iff₀ (by norm_num : (0 : ℚ) < 2000)]; linarith) (by norm_num)
  constructor
  · simp only [deepScan, initRow, calculate_momentum_score]
    linarith
  · intro hlp hx hg
    simp only [deepScan, initRow] at hlp hx hg
    simp only [deepScan, initRow, calculate_score]
    have t3 : (0 : ℚ) ≤ max 0 (1 - ((o.supply mm).getD (0, 0)).1 * 100) := le_max_left _ _
    have t4 : (0 : ℚ) ≤ min ((o.supply mm).getD (0, 0)).2 1 := le_min hlp zero_le_one
    have t5 : (0 : ℚ) ≤ max 0
        ((8 - ((((o.topHolders mm).getD []).take 10).map Prod.snd).sum * 100) / 8) :=
      le_max_left _ _
    have t6 : (0 : ℚ) ≤ min (((o.sns mm).getD (0, 0)).1 / 300) 1 :=
      le_min (div_nonneg hx (by norm_num)) zero_le_one
    have t7 : (0 : ℚ) ≤ min (((o.sns mm).getD (0, 0)).2 / 300) 1 :=
      le_min (div_nonneg hg (by norm_num)) zero_le_one
    have t8 : (0 : ℚ) ≤ (if vwapFlagOf o mm then (1 : ℚ) else 0) := by
      split <;> norm_num
    linarith

/-- Witness for output_momentum_floor on the record of candidate A in
the A/B example cycle. -/
theorem output_momentum_floor_witness :
    2 ≤ rowA.momentum_score ∧ 2 ≤ rowA.score := by
  have hmem : rowA ∈ screen_once oAB ["A"] := by
    rw [show screen_once oAB ["A"] = [rowA] from rfl]
    exact List.mem_singleton.2 rfl
  have h := output_momentum_floor oAB ["A"] rowA hmem
  refine ⟨h.1, h.2 ?_ ?_ ?_⟩ <;> norm_num [rowA, deepScan, initRow, oAB]

/-- Claim C8: each of the four Stage-2 sub-fetches is individually
isolated.  The deep scan never touches the Stage-1 fields; a failing
supply fetch zeroes only the creator and LP fields; a failing holder
fetch zeroes only the top-10 sum; a failing price fetch only clears the
resilience flag; a failing social fetch zeroes only the two growth
fields; a failure for one candidate leaves every other candidate's deep
scan unchanged; and a surviving candidate remains in the ranked output
even when all four of its sub-fetches fail. -/
theorem subfetch_isolation :
    ∀ (o : Oracles) (m : String),
      (∀ r : Row,
          (deepScan o r).mint = r.mint ∧ (deepScan o r).name = r.name ∧
          (deepScan o r).symbol = r.symbol ∧
          (deepScan o r).buys_per_minute = r.buys_per_minute ∧
          (deepScan o r).volume_1h_sol = r.volume_1h_sol) ∧
      (∀ r : Row, r.mint = m →
          (deepScan (failSupply o m) r).creator_holdings_pct = 0 ∧
          (deepScan (failSupply o m) r).lp_lock_pct = 0 ∧
          (deepScan (failSupply o m) r).top10_concentration
            = (deepScan o r).top10_concentration ∧
          (deepScan (failSupply o m) r).vwap_resilience = (deepScan o r).vwap_resilience ∧
          (deepScan (failSupply o m) r).x_growth = (deepScan o r).x_growth ∧
          (deepScan (failSupply o m) r).gtrend_growth = (deepScan o r).gtrend_growth) ∧
      (∀ r : Row, r.mint = m →
          (deepScan (failHolders o m) r).top10_concentration = 0 ∧
          (deepScan (failHolders o m) r).creator_holdings_pct
            = (deepScan o r).creator_holdings_pct ∧
          (deepScan (failHolders o m) r).lp_lock_pct = (deepScan o r).lp_lock_pct ∧
          (deepScan (failHolders o m) r).vwap_resilience = (deepScan o r).vwap_resilience ∧
          (deepScan (failHolders o m) r).x_growth = (deepScan o r).x_growth ∧
          (deepScan (failHolders o m) r).gtrend_growth = (deepScan o r).gtrend_growth) ∧
      (∀ r : Row, r.mint = m →
          (deepScan (failPrices o m) r).vwap_resilience = false ∧
          (deepScan (failPrices o m) r).creator_holdings_pct
            = (deepScan o r).creator_holdings_pct ∧
          (deepScan (failPrices o m) r).lp_lock_pct = (deepScan o r).lp_lock_pct ∧
          (deepScan (failPrices o m) r).top10_concentration
            = (deepScan o r).top10_concentration ∧
          (deepScan (failPrices o m) r).x_growth = (deepScan o r).x_growth ∧
          (deepScan (failPrices o m) r).gtrend_growth = (deepScan o r).gtrend_growth) ∧
      (∀ r : Row, r.mint = m →
          (deepScan (failSns o m) r).x_growth = 0 ∧
          (deepScan (failSns o m) r).gtrend_growth = 0 ∧
          (deepScan (failSns o m) r).creator_holdings_pct
            = (deepScan o r).creator_holdings_pct ∧
          (deepScan (failSns o m) r).lp_lock_pct = (deepScan o r).lp_lock_pct ∧
          (deepScan (failSns o m) r).top10_concentration
            = (deepScan o r).top10_concentration ∧
          (deepScan (failSns o m) r).vwap_resilience = (deepScan o r).vwap_resilience) ∧
      (∀ r : Row, r.mint ≠ m →
          deepScan (failSupply o m) r = deepScan o r ∧
          deepScan (failHolders o m) r = deepScan o r ∧
          deepScan (failPrices o m) r = deepScan o r ∧
          deepScan (failSns o m) r = deepScan o r) ∧
      (∀ cs : List String, passesFilter o m = true → m ∈ cs →
          ∃ r ∈ screen_once (failAllDeep o m) cs, r.mint = m) := by
  intro o m
  refine ⟨fun r => ⟨rfl, rfl, rfl, rfl, rfl⟩, ?_, ?_, ?_, ?_, ?_, ?_⟩
  · intro r hr
    subst hr
    refine ⟨?_, ?_, rfl, rfl, rfl, rfl⟩ <;> simp [deepScan, failSupply]
  · intro r hr
    subst hr
    refine ⟨?_, rfl, rfl, rfl, rfl, rfl⟩
    simp [deepScan, failHolders]
  · intro r hr
    subst hr
    refine ⟨?_, rfl, rfl, rfl, rfl, rfl⟩
    simp [deepScan, vwapFlagOf, failPrices]
  · intro r hr
    subst hr
    refine ⟨?_, ?_, rfl, rfl, rfl, rfl⟩ <;> simp [deepScan, failSns]
  · intro r hr
    refine ⟨?_, ?_, ?_, ?_⟩ <;> simp [deepScan, vwapFlagOf, failSupply, failHolders,
      failPrices, failSns, hr]
  · intro cs hpass hmem
    exact (mem_screen_once_iff (failAllDeep o m) cs m).2 ⟨hmem, hpass⟩

/-- Witness for subfetch_isolation on the A/B example: each failing
sub-fetch default on the record of A, one unaffected foreign record,
and the presence of A in the output of the all-failures cycle. -/
theorem subfetch_isolation_witness :
    (deepScan (failSupply oAB "A") (initRow oAB "A")).creator_holdings_pct = 0 ∧
    (deepScan (failHolders oAB "A") (initRow oAB "A")).top10_concentration = 0 ∧
    (deepScan (failPrices oAB "A") (initRow oAB "A")).vwap_resilience = false ∧
    (deepScan (failSns oAB "A") (initRow oAB "A")).x_growth = 0 ∧
    deepScan (failSupply oAB "A") rowNeg = deepScan oAB rowNeg ∧
    (∃ r ∈ screen_once (failAllDeep oAB "A") ["A"], r.mint = "A") :=
  ⟨((subfetch_isolation oAB "A").2.1 (initRow oAB "A") rfl).1,
   ((subfetch_isolation oAB "A").2.2.1 (initRow oAB "A") rfl).1,
   ((subfetch_isolation oAB "A").2.2.2.1 (initRow oAB "A") rfl).1,
   ((subfetch_isolation oAB "A").2.2.2.2.1 (initRow oAB "A") rfl).1,
   (((subfetch_isolation oAB "A").2.2.2.2.2.1 rowNeg (by decide)).1),
   (subfetch_isolation oAB "A").2.2.2.2.2.2 ["A"] rfl (by decide)⟩

/-- Fetching tasks hold the semaphore under the Stage-1 shapes: a task
whose next action is endF is past its acq. -/
theorem midFetch_imp_holdsSem : ∀ l : List Act, midFetch l = true → holdsSem l = true := by
  intro l hm
  cases l with
  | nil => simp [midFetch] at hm
  | cons a rest => cases a <;> simp_all [midFetch, holdsSem]

/-- Step facts for every suffix of the two Stage-1 task programs,
checked by enumeration. -/
theorem prog1_facts :
    ∀ l ∈ prog1pass.tails ++ prog1fail.tails,
      (l.tail <:+ prog1pass ∨ l.tail <:+ prog1fail) ∧
      (l.head? = some Act.acq →
        holdsSem l = false ∧ midFetch l = false ∧
        holdsSem l.tail = true ∧ midFetch l.tail = false) ∧
      (l.head? = some Act.beginF →
        holdsSem l = true ∧ midFetch l = false ∧
        holdsSem l.tail = true ∧ midFetch l.tail = true) ∧
      (l.head? = some Act.endF →
        holdsSem l = true ∧ midFetch l = true ∧
        holdsSem l.tail = true ∧ midFetch l.tail = false) ∧
      (l.head? = some Act.rel →
        holdsSem l = true ∧ midFetch l = false ∧
        holdsSem l.tail = false ∧ midFetch l.tail = false) := by
  decide

/-- Step facts for every suffix of the Stage-2 task program, checked by
enumeration: no Stage-2 task ever touches the semaphore. -/
theorem prog2_facts :
    ∀ l ∈ prog2.tails,
      l.tail <:+ prog2 ∧
      (l.head? = some Act.acq → False) ∧
      (l.head? = some Act.rel → False) ∧
      (l.head? = some Act.beginF → midFetch l = false ∧ midFetch l.tail = true) ∧
      (l.head? = some Act.endF → midFetch l = true ∧ midFetch l.tail = false) := by
  decide

/-- One scheduler step preserves the Stage-1 invariant. -/
theorem inv1_cstep :
    ∀ (s t : CState) (i : ℕ), Inv1 s → cstep s i = some t → Inv1 t := by
  intro s t i hs hstep
  obtain ⟨hsem, hinf, hsuf⟩ := hs
  unfold cstep at hstep
  cases hl : s.tasks[i]? with
  | none => rw [hl] at hstep; exact absurd hstep (by simp)
  | some l =>
    rw [hl] at hstep
    have hlen : i < s.tasks.length := by
      rcases List.getElem?_eq_some_iff.1 hl with ⟨h, -⟩
      exact h
    have hget : s.tasks[i] = l := by
      rcases List.getElem?_eq_some_iff.1 hl with ⟨h2, he⟩
      exact he
    have hmem : l ∈ s.tasks := List.getElem?_mem hl
    have hsufl := hsuf l hmem
    cases l with
    | nil => exact absurd hstep (by simp)
    | cons a rest =>
      have hfacts := prog1_facts (a :: rest) (by
        rw [List.mem_append, List.mem_tails, List.mem_tails]
        exact hsufl)
      simp only [List.tail_cons, List.head?_cons] at hfacts
      obtain ⟨hsuft, hacq, hbegin, hend, hrel⟩ := hfacts
      have hcount := List.countP_set holdsSem s.tasks i rest hlen
      have hcountF := List.countP_set midFetch s.tasks i rest hlen
      have hboole := List.boole_getElem_le_countP holdsSem s.tasks i hlen
      have hbooleF := List.boole_getElem_le_countP midFetch s.tasks i hlen
      rw [hget] at hcount hcountF hboole hbooleF
      cases a with
      | acq =>
        obtain ⟨f1, f2, f3, f4⟩ := hacq rfl
        simp [f1, f2, f3, f4] at hcount hcountF
        have hstep2 : (if 0 < s.sem then
            some { sem := s.sem - 1, inflight := s.inflight, tasks := s.tasks.set i rest }
          else none) = some t := hstep
        by_cases h0 : 0 < s.sem
        · rw [if_pos h0] at hstep2
          have ht := Option.some.inj hstep2
          subst ht
          refine ⟨?_, ?_, ?_⟩
          · show s.sem - 1 + (s.tasks.set i rest).countP holdsSem = 10
            omega
          · show s.inflight = (s.tasks.set i rest).countP midFetch
            omega
          · intro l2 hl2
            rcases List.mem_or_eq_of_mem_set hl2 with h2 | rfl
            · exact hsuf l2 h2
            · exact hsuft
        · rw [if_neg h0] at hstep2
          exact absurd hstep2 (by simp)
      | rel =>
        obtain ⟨f1, f2, f3, f4⟩ := hrel rfl
        simp [f1, f2, f3, f4] at hcount hcountF
        rw [f1, if_pos rfl] at hboole
        have ht := Option.some.inj hstep
        subst ht
        refine ⟨?_, ?_, ?_⟩
        · show s.sem + 1 + (s.tasks.set i rest).countP holdsSem = 10
          omega
        · show s.inflight = (s.tasks.set i rest).countP midFetch
          omega
        · intro l2 hl2
          rcases List.mem_or_eq_of_mem_set hl2 with h2 | rfl
          · exact hsuf l2 h2
          · exact hsuft
      | beginF =>
        obtain ⟨f1, f2, f3, f4⟩ := hbegin rfl
        simp [f1, f2, f3, f4] at hcount hcountF
        rw [f1, if_pos rfl] at hboole
        have ht := Option.some.inj hstep
        subst ht
        refine ⟨?_, ?_, ?_⟩
        · show s.sem + (s.tasks.set i rest).countP holdsSem = 10
          omega
        · show s.inflight + 1 = (s.tasks.set i rest).countP midFetch
          omega
        · intro l2 hl2
          rcases List.mem_or_eq_of_mem_set hl2 with h2 | rfl
          · exact hsuf l2 h2
          · exact hsuft
      | endF =>
        obtain ⟨f1, f2, f3, f4⟩ := hend rfl
        simp [f1, f2, f3, f4] at hcount hcountF
        rw [f2, if_pos rfl] at hbooleF
        rw [f1, if_pos rfl] at hboole
        have ht := Option.some.inj hstep
        subst ht
        refine ⟨?_, ?_, ?_⟩
        · show s.sem + (s.tasks.set i rest).countP holdsSem = 10
          omega
        · show s.inflight - 1 = (s.tasks.set i rest).countP midFetch
          omega
        · intro l2 hl2
          rcases List.mem_or_eq_of_mem_set hl2 with h2 | rfl
          · exact hsuf l2 h2
          · exact hsuft

/-- One scheduler step preserves the Stage-2 invariant. -/
theorem inv2_cstep :
    ∀ (m : ℕ) (s t : CState) (i : ℕ), Inv2 m s → cstep s i = some t → Inv2 m t := by
  intro m s t i hs hstep
  obtain ⟨hinf, hsuf, hlenm⟩ := hs
  unfold cstep at hstep
  cases hl : s.tasks[i]? with
  | none => rw [hl] at hstep; exact absurd hstep (by simp)
  | some l =>
    rw [hl] at hstep
    have hlen : i < s.tasks.length := by
      rcases List.getElem?_eq_some_iff.1 hl with ⟨h2, -⟩
      exact h2
    have hget : s.tasks[i] = l := by
      rcases List.getElem?_eq_some_iff.1 hl with ⟨h2, he⟩
      exact he
    have hmem : l ∈ s.tasks := List.getElem?_mem hl
    have hsufl := hsuf l hmem
    cases l with
    | nil => exact absurd hstep (by simp)
    | cons a rest =>
      have hfacts := prog2_facts (a :: rest) (by
        rw [List.mem_tails]
        exact hsufl)
      simp only [List.tail_cons, List.head?_cons] at hfacts
      obtain ⟨hsuft, hacq, hrel, hbegin, hend⟩ := hfacts
      have hcountF := List.countP_set midFetch s.tasks i rest hlen
      have hbooleF := List.boole_getElem_le_countP midFetch s.tasks i hlen
      rw [hget] at hcountF hbooleF
      cases a with
      | acq => exact absurd rfl hacq
      | rel => exact absurd rfl hrel
      | beginF =>
        obtain ⟨f2, f4⟩ := hbegin rfl
        simp [f2, f4] at hcountF
        have ht := Option.some.inj hstep
        subst ht
        refine ⟨?_, ?_, ?_⟩
        · show s.inflight + 1 = (s.tasks.set i rest).countP midFetch
          omega
        · intro l2 hl2
          rcases List.mem_or_eq_of_mem_set hl2 with h2 | rfl
          · exact hsuf l2 h2
          · exact hsuft
        · show (s.tasks.set i rest).length = m
          rw [List.length_set]
          exact hlenm
      | endF =>
        obtain ⟨f2, f4⟩ := hend rfl
        simp [f2, f4] at hcountF
        rw [f2, if_pos rfl] at hbooleF
        have ht := Option.some.inj hstep
        subst ht
        refine ⟨?_, ?_, ?_⟩
        · show s.inflight - 1 = (s.tasks.set i rest).countP midFetch
          omega
        · intro l2 hl2
          rcases List.mem_or_eq_of_mem_set hl2 with h2 | rfl
          · exact hsuf l2 h2
          · exact hsuft
        · show (s.tasks.set i rest).length = m
          rw [List.length_set]
          exact hlenm

/-- Every schedule preserves the Stage-1 invariant. -/
theorem inv1_runSched :
    ∀ (sched : List ℕ) (s t : CState), Inv1 s → runSched s sched = some t → Inv1 t := by
  intro sched
  induction sched with
  | nil =>
    intro s t hs h
    have he : s = t := Option.some.inj h
    subst he
    exact hs
  | cons i rest ih =>
    intro s t hs h
    unfold runSched at h
    cases hc : cstep s i with
    | none => rw [hc] at h; exact absurd h (by simp)
    | some s2 =>
      rw [hc] at h
      exact ih s2 t (inv1_cstep s s2 i hs hc) h

/-- Every schedule preserves the Stage-2 invariant. -/
theorem inv2_runSched :
    ∀ (m : ℕ) (sched : List ℕ) (s t : CState),
      Inv2 m s → runSched s sched = some t → Inv2 m t := by
  intro m sched
  induction sched with
  | nil =>
    intro s t hs h
    have he : s = t := Option.some.inj h
    subst he
    exact hs
  | cons i rest ih =>
    intro s t hs h
    unfold runSched at h
    cases hc : cstep s i with
    | none => rw [hc] at h; exact absurd h (by simp)
    | some s2 =>
      rw [hc] at h
      exact ih s2 t (inv2_cstep m s s2 i hs hc) h

/-- The Stage-1 start state satisfies the Stage-1 invariant. -/
theorem inv1_init (n k : ℕ) : Inv1 (init1 n k) := by
  refine ⟨?_, ?_, ?_⟩
  · show 10 + (List.replicate n prog1pass ++ List.replicate k prog1fail).countP holdsSem = 10
    rw [List.countP_append, List.countP_replicate, List.countP_replicate]
    simp [prog1pass, prog1fail, holdsSem]
  · show 0 = (List.replicate n prog1pass ++ List.replicate k prog1fail).countP midFetch
    rw [List.countP_append, List.countP_replicate, List.countP_replicate]
    simp [prog1pass, prog1fail, midFetch]
  · intro l hl
    rcases List.mem_append.1 hl with h | h
    · left
      rw [List.eq_of_mem_replicate h]
    · right
      rw [List.eq_of_mem_replicate h]

/-- The Stage-2 start state satisfies the Stage-2 invariant. -/
theorem inv2_init (m : ℕ) : Inv2 m (init2 m) := by
  refine ⟨?_, ?_, ?_⟩
  · show 0 = (List.replicate m prog2).countP midFetch
    rw [List.countP_replicate]
    simp [prog2, midFetch]
  · intro l hl
    rw [List.eq_of_mem_replicate hl]
  · exact List.length_replicate m prog2

/-- Counterexample to claim C4 as stated: the semaphore is acquired only
by the Stage-1 tasks; the Stage-2 deep_scan tasks run outside it.  In a
cycle with 11 survivors the scheduler can let every deep_scan task open
its first upstream call before any finishes, reaching 11 simultaneous
in-flight sub-fetches, above the ceiling of 10. -/
theorem concurrency_ceiling_counterexample :
    Reach (init2 11) elevenState ∧ 10 < elevenState.inflight :=
  ⟨⟨elevenSched, rfl⟩, by norm_num [elevenState]⟩

/-- Claim C4 as amended: the ceiling of 10 bounds the in-flight upstream
calls of Stage-1 alone, in every reachable state of any Stage-1 batch;
the Stage-2 batch is bounded only by its own task count, one in-flight
call per survivor, because its sub-fetches run sequentially inside each
task but acquire no semaphore. -/
theorem concurrency_ceiling_per_stage :
    (∀ (n k : ℕ) (t : CState), Reach (init1 n k) t → t.inflight ≤ 10) ∧
    (∀ (m : ℕ) (t : CState), Reach (init2 m) t → t.inflight ≤ m) := by
  constructor
  · rintro n k t ⟨sched, hrun⟩
    obtain ⟨hsem, hinf, hsuf⟩ := inv1_runSched sched (init1 n k) t (inv1_init n k) hrun
    have hmono : t.tasks.countP midFetch ≤ t.tasks.countP holdsSem :=
      List.countP_mono_left fun l _ hm => midFetch_imp_holdsSem l hm
    omega
  · rintro m t ⟨sched, hrun⟩
    obtain ⟨hinf, hsuf, hlenm⟩ := inv2_runSched m sched (init2 m) t (inv2_init m) hrun
    have hle : t.tasks.countP midFetch ≤ t.tasks.length := List.countP_le_length midFetch
    omega

/-- Witness for concurrency_ceiling_per_stage at the empty schedule of
small concrete batches. -/
theorem concurrency_ceiling_per_stage_witness :
    (init1 2 1).inflight ≤ 10 ∧ (init2 3).inflight ≤ 3 :=
  ⟨concurrency_ceiling_per_stage.1 2 1 (init1 2 1) ⟨[], rfl⟩,
   concurrency_ceiling_per_stage.2 3 (init2 3) ⟨[], rfl⟩⟩
